import Mathlib

/-!
Verification development for `lswt` (list Wayland toplevels), a one-shot
query tool that enumerates toplevel windows over two Wayland protocol
dialects (zwlr-foreign-toplevel-management-unstable-v1, "dialect A", and
ext-foreign-toplevel-list-v1, "dialect B") and renders them.

The definitions below are a shallow embedding of `lswt.c`: the Toplevel
record and its mutation helpers, the per-handle event listeners, the
registry / bind negotiation, the two-phase sync barrier, capability
resolution, the output writers and the argument parser.  C strings become
`String`, nullable pointers become `Option`, the `wl_list` of toplevels
becomes a `List Nat` of handle ids (head = most recently inserted, as
`wl_list_insert(&toplevels, ...)` inserts at the head), `stderr` becomes a
`List String` of messages, and a fallible `strdup`/`calloc` is modelled by
an explicit `alloc_ok : Bool` argument carried by the event.
-/

namespace Lswt

/-- `EXIT_SUCCESS` from `<stdlib.h>`. -/
def EXIT_SUCCESS : Nat := 0

/-- `EXIT_FAILURE` from `<stdlib.h>`. -/
def EXIT_FAILURE : Nat := 1

/-- `struct Toplevel` from `lswt.c`.  The two remote handle pointers
(`zwlr_handle`, `ext_handle`) and the intrusive `wl_list link` are not
data; the link is represented by membership of the handle id in the
session-level `toplevels` list. -/
structure Toplevel where
  title : Option String
  app_id : Option String
  identifier : Option String
  fullscreen : Bool
  activated : Bool
  maximized : Bool
  minimized : Bool
  /-- True if this toplevel has already been added to the list;
  guards against appending the same toplevel twice from repeated
  `done` events. -/
  listed : Bool
deriving DecidableEq

/-- `toplevel_new()`: `calloc` + explicit initialization, all fields
null/false.  (The allocation-failure branch is modelled at the event
level, see `WEvent.toplevel`.) -/
def toplevel_new : Toplevel :=
  { title := none, app_id := none, identifier := none,
    fullscreen := false, activated := false,
    maximized := false, minimized := false, listed := false }

/-- C `isspace` (default locale): space, `\t`, `\n`, vertical tab,
form feed, carriage return. -/
def isspace_c (c : Char) : Bool :=
  c = ' ' || c = '\t' || c = '\n' || c = '\x0b' || c = '\x0c' || c = '\r'

/-- C `isascii`: byte value 0..127. -/
def isascii_c (c : Char) : Bool :=
  c.toNat ≤ 127

/-- `real_strlen` from `lswt.c`: "Return the amount of bytes printed when
printing the given string".  Counts 2 for `"`, `\`, `\n`, `\t` (assuming
they print escaped), 1 otherwise, plus 2 if any `isspace` character was
seen in the default branch (for the surrounding quotes).  Note `\t` and
`\n` hit the escape cases before the `isspace` check, exactly as the C
`switch` does. -/
def real_strlen (str : String) : Nat :=
  let p := str.toList.foldl
    (fun (acc : Nat × Bool) c =>
      if c = '"' || c = '\\' || c = '\n' || c = '\t' then (acc.1 + 2, acc.2)
      else (acc.1 + 1, acc.2 || isspace_c c))
    (0, false)
  if p.2 then p.1 + 2 else p.1

/-- `max_app_id_padding` from `lswt.c`. -/
def max_app_id_padding : Nat := 40

/-- `toplevel_set_title`: frees the previous title, then
`self->title = strdup(title)`.  On allocation failure the field is the
null result of `strdup` and an error is printed to stderr.  Returns the
updated record and the stderr messages. -/
def toplevel_set_title (self : Toplevel) (title : String) (alloc_ok : Bool) :
    Toplevel × List String :=
  if alloc_ok then ({ self with title := some title }, [])
  else ({ self with title := none }, ["ERROR: strdup()"])

/-- `toplevel_set_app_id`: frees the previous app-id, then
`self->app_id = strdup(app_id)`.  On success it also updates the global
`longest_app_id` used for padding (only if the printed length exceeds the
current value and is below `max_app_id_padding`); on allocation failure
it logs and returns early, leaving `longest_app_id` unchanged.  Returns
the updated record, the new `longest_app_id` and the stderr messages. -/
def toplevel_set_app_id (self : Toplevel) (app_id : String) (alloc_ok : Bool)
    (longest_app_id : Nat) : Toplevel × Nat × List String :=
  if alloc_ok then
    let len := real_strlen app_id
    ({ self with app_id := some app_id },
     if len > longest_app_id ∧ max_app_id_padding > len then len
     else longest_app_id,
     [])
  else
    ({ self with app_id := none }, longest_app_id, ["ERROR: strdup()"])

/-- `toplevel_set_identifier`: if an identifier is already set, log a
protocol-error (the compositor may not change it) and free it; then
`self->identifier = strdup(identifier)`, logging on allocation failure. -/
def toplevel_set_identifier (self : Toplevel) (identifier : String)
    (alloc_ok : Bool) : Toplevel × List String :=
  let protocol_log : List String :=
    if self.identifier ≠ none then
      ["ERROR: protocol-error: compositor changed identifier of toplevel"]
    else []
  if alloc_ok then ({ self with identifier := some identifier }, protocol_log)
  else ({ self with identifier := none }, protocol_log ++ ["ERROR: strdup()"])

/-- `toplevel_set_fullscreen`. -/
def toplevel_set_fullscreen (self : Toplevel) (fullscreen : Bool) : Toplevel :=
  { self with fullscreen := fullscreen }

/-- `toplevel_set_activated`. -/
def toplevel_set_activated (self : Toplevel) (activated : Bool) : Toplevel :=
  { self with activated := activated }

/-- `toplevel_set_maximized`. -/
def toplevel_set_maximized (self : Toplevel) (maximized : Bool) : Toplevel :=
  { self with maximized := maximized }

/-- `toplevel_set_minimized`. -/
def toplevel_set_minimized (self : Toplevel) (minimized : Bool) : Toplevel :=
  { self with minimized := minimized }

/-- `ZWLR_FOREIGN_TOPLEVEL_HANDLE_V1_STATE_MAXIMIZED` (protocol enum,
from the generated wlr-foreign-toplevel-management-unstable-v1 header). -/
def zwlr_state_maximized : Nat := 0

/-- `ZWLR_FOREIGN_TOPLEVEL_HANDLE_V1_STATE_MINIMIZED`. -/
def zwlr_state_minimized : Nat := 1

/-- `ZWLR_FOREIGN_TOPLEVEL_HANDLE_V1_STATE_ACTIVATED`. -/
def zwlr_state_activated : Nat := 2

/-- `ZWLR_FOREIGN_TOPLEVEL_HANDLE_V1_STATE_FULLSCREEN`. -/
def zwlr_state_fullscreen : Nat := 3

/-- The four stack locals of `zwlr_foreign_handle_handle_state`, all
initialized to false before the `wl_array` scan. -/
structure WlrStateLocals where
  fullscreen : Bool
  activated : Bool
  minimized : Bool
  maximized : Bool
deriving DecidableEq

/-- The `wl_array_for_each ... switch` scan of the state event payload:
each recognized token sets the corresponding local, unrecognized tokens
fall through. -/
def wlr_state_scan (ls : WlrStateLocals) : List Nat → WlrStateLocals
  | [] => ls
  | s :: rest =>
    wlr_state_scan
      (if s = zwlr_state_maximized then { ls with maximized := true }
       else if s = zwlr_state_minimized then { ls with minimized := true }
       else if s = zwlr_state_activated then { ls with activated := true }
       else if s = zwlr_state_fullscreen then { ls with fullscreen := true }
       else ls)
      rest

/-- `zwlr_foreign_handle_handle_state`: scan the token array into four
fresh locals, then overwrite all four flags of the record (a state event
is a complete snapshot, not a delta). -/
def zwlr_foreign_handle_handle_state (toplevel : Toplevel)
    (states : List Nat) : Toplevel :=
  let ls := wlr_state_scan
    { fullscreen := false, activated := false,
      minimized := false, maximized := false } states
  toplevel_set_maximized
    (toplevel_set_minimized
      (toplevel_set_activated
        (toplevel_set_fullscreen toplevel ls.fullscreen) ls.activated)
      ls.minimized)
    ls.maximized

/-- The escape applied to one character by the loop body of
`quoted_fputs`: `"` becomes `\"`, newline becomes `\n`, tab becomes `\t`,
everything else (including `\`) is emitted verbatim. -/
def quoted_escape_char (c : Char) : String :=
  if c = '"' then "\\\""
  else if c = '\n' then "\\n"
  else if c = '\t' then "\\t"
  else String.singleton c

/-- The byte count the same loop adds for one character. -/
def quoted_escape_len (c : Char) : Nat :=
  if c = '"' then 2
  else if c = '\n' then 2
  else if c = '\t' then 2
  else 1

/-- `quoted_fputs` on a non-null string: the emitted text (two mandatory
quotes around the escaped body) together with the byte count `l` it
reports (2 for the quotes plus the per-character counts). -/
def quoted_fputs (str : String) : String × Nat :=
  ("\"" ++ String.join (str.toList.map quoted_escape_char) ++ "\"",
   2 + (str.toList.map quoted_escape_len).sum)

/-- `write_json`: always quote strings, print `null` for NULL. -/
def write_json (str : Option String) : String :=
  match str with
  | none => "null"
  | some s => (quoted_fputs s).1

/-- `write_custom`: never quote, print `<NULL>` on NULL. -/
def write_custom (str : Option String) : String :=
  match str with
  | none => "<NULL>"
  | some s => s

/-- `write_custom_optional`: the literal token `unsupported` when the
capability is absent. -/
def write_custom_optional (supported : Bool) (str : Option String) : String :=
  if supported then write_custom str else "unsupported"

/-- `write_custom_optional_bool`. -/
def write_custom_optional_bool (supported : Bool) (b : Bool) : String :=
  if supported then (if b then "true" else "false") else "unsupported"

/-- The five capability globals (`support_*` in `lswt.c`), all false at
program start. -/
structure Capabilities where
  support_fullscreen : Bool
  support_activated : Bool
  support_maximized : Bool
  support_minimized : Bool
  support_identifier : Bool
deriving DecidableEq

/-- The field codes accepted by the custom format, from the `switch` in
`out_check_custom_format` / `out_write_toplevel`. -/
def valid_field_code (c : Char) : Bool :=
  c = 't' || c = 'a' || c = 'i' || c = 'A' || c = 'f' || c = 'm' || c = 'M'

/-- One field of the CUSTOM `switch` in `out_write_toplevel`.  The
default case is `assert(false)` in C and unreachable behind
`out_check_custom_format`; it is modelled as the empty string. -/
def custom_field (caps : Capabilities) (toplevel : Toplevel) (c : Char) :
    String :=
  if c = 't' then write_custom toplevel.title
  else if c = 'a' then write_custom toplevel.app_id
  else if c = 'i' then
    write_custom_optional caps.support_identifier toplevel.identifier
  else if c = 'A' then
    write_custom_optional_bool caps.support_activated toplevel.activated
  else if c = 'f' then
    write_custom_optional_bool caps.support_fullscreen toplevel.fullscreen
  else if c = 'm' then
    write_custom_optional_bool caps.support_minimized toplevel.minimized
  else if c = 'M' then
    write_custom_optional_bool caps.support_maximized toplevel.maximized
  else ""

/-- The CUSTOM loop of `out_write_toplevel`: emit the delimiter before
every field except the first (`need_delim` starts false). -/
def custom_loop (delim : Char) (caps : Capabilities) (toplevel : Toplevel) :
    List Char → Bool → String
  | [], _ => ""
  | c :: rest, need_delim =>
    (if need_delim then String.singleton delim else "")
      ++ custom_field caps toplevel c
      ++ custom_loop delim caps toplevel rest true

/-- The CUSTOM case of `out_write_toplevel`: delimiter is the first
character of the format, the remaining characters are field codes, the
line ends with a newline.  (An empty format cannot reach this point:
`out_check_custom_format` rejected it and the C code asserts
`strlen > 1`.) -/
def out_write_toplevel_custom (fmt : String) (caps : Capabilities)
    (toplevel : Toplevel) : String :=
  match fmt.toList with
  | [] => ""
  | delim :: codes => custom_loop delim caps toplevel codes false ++ "\n"

/-- `out_check_custom_format`, returning the boolean verdict and the
error message printed to stderr: rejects formats of length 0 or 1,
non-ASCII delimiters, and unknown field codes. -/
def out_check_custom_format (fmt : String) : Bool × List String :=
  let len := fmt.length
  if len = 1 ∨ len = 0 then
    (false,
     ["ERROR: Invalid custom format: Requires at least delimiter and one field."])
  else if ¬ (isascii_c (fmt.toList.headD ' ') = true) then
    (false, ["ERROR: Invalid custom format: Delimiter must be an ASCII character."])
  else if (fmt.toList.drop 1).all valid_field_code then (true, [])
  else (false, ["ERROR: Invalid custom format: Unknown field name."])

/-- The `usage[]` string constant of `lswt.c` (note: it does not mention
`--debug`). -/
def usage : String :=
  "Usage: lswt [options...]\n  -h,        --help           Print this helpt text and exit.\n  -v,        --version        Print version and exit.\n  -j,        --json           Output data in JSON format.\n  -c <fmt>, --custom <fmt>    Define a custom line-based output format.\n"

/-- `DEBUG_LOG`: prints to stderr only when the `debug_log` global is
set. -/
def debug_stderr (debug_log : Bool) (msg : String) : List String :=
  if debug_log then [msg] else []

/-- `enum Output_format`. -/
inductive Output_format where
  | NORMAL
  | CUSTOM
  | JSON
deriving DecidableEq

/-- Outcome of the argument-parsing loop at the top of `main`:
`early ret` is the `goto cleanup` path (the process exits with `ret`
before connecting — no session, no protocol objects); `run` proceeds to
the Wayland session with the accumulated option globals. -/
inductive ArgOutcome where
  | early (ret : Nat)
  | run (output_format : Output_format) (custom_output_format : Option String)
        (debug_log : Bool)
deriving DecidableEq

/-- The `for (int i = 1; i < argc; i++)` option loop of `main`, carrying
the mutable globals `output_format`, `custom_output_format` and
`debug_log`. -/
def parse_go (output_format : Output_format)
    (custom_output_format : Option String) (debug_log : Bool) :
    List String → ArgOutcome
  | [] => .run output_format custom_output_format debug_log
  | arg :: rest =>
    if arg = "-j" ∨ arg = "--json" then
      if output_format ≠ .NORMAL then .early EXIT_FAILURE
      else parse_go .JSON custom_output_format debug_log rest
    else if arg = "-c" ∨ arg = "--custom" then
      if output_format ≠ .NORMAL then .early EXIT_FAILURE
      else
        match rest with
        | [] => .early EXIT_FAILURE
        | fmt :: rest' =>
          if (out_check_custom_format fmt).1 = false then .early EXIT_FAILURE
          else parse_go .CUSTOM (some fmt) debug_log rest'
    else if arg = "--debug" then
      parse_go output_format custom_output_format true rest
    else if arg = "-v" ∨ arg = "--version" then .early EXIT_SUCCESS
    else if arg = "-h" ∨ arg = "--help" then .early EXIT_SUCCESS
    else .early EXIT_FAILURE

/-- Argument parsing from the initial values of the globals. -/
def parse_args (args : List String) : ArgOutcome :=
  parse_go .NORMAL none false args

/-- Erase the `debug_log` component of an outcome (used to state that
`--debug` affects nothing else). -/
def ArgOutcome.erase_debug : ArgOutcome → ArgOutcome
  | .early ret => .early ret
  | .run fmt custom _ => .run fmt custom false

/-- Whether `needle` occurs at the start of `hay` (statement-side helper
for searching the usage text). -/
def startsWithSeq : List Char → List Char → Bool
  | [], _ => true
  | _ :: _, [] => false
  | n :: ns, h :: hs => n = h && startsWithSeq ns hs

/-- Whether `needle` occurs anywhere inside `hay` (statement-side helper
for searching the usage text). -/
def containsSeq (needle : List Char) : List Char → Bool
  | [] => needle.isEmpty
  | h :: hs => startsWithSeq needle (h :: hs) || containsSeq needle hs

/-- Interface name of dialect A (`zwlr_foreign_toplevel_manager_v1_interface.name`). -/
def zwlr_interface_name : String := "zwlr_foreign_toplevel_manager_v1"

/-- Interface name of dialect B (`ext_foreign_toplevel_list_v1_interface.name`). -/
def ext_interface_name : String := "ext_foreign_toplevel_list_v1"

/-- The mutable globals of `lswt.c` relevant to the Wayland session,
plus bookkeeping: `recs` maps each announced handle id to its record
(`data` pointers of the per-handle listeners); `toplevels` is the
`wl_list` of listed records, head = most recently inserted;
`zwlr_binds` / `ext_binds` count `wl_registry_bind` calls so that "never
bound" is expressible; `sync` is the static counter of
`sync_handle_done`; `syncs_issued` counts `wl_display_sync` calls
(1 at loop entry: `main` issues the first sync before dispatching). -/
structure ProgState where
  ret : Nat
  loop : Bool
  zwlr_toplevel_manager : Bool
  ext_toplevel_list : Bool
  zwlr_binds : Nat
  ext_binds : Nat
  recs : List (Nat × Toplevel)
  toplevels : List Nat
  longest_app_id : Nat
  support_fullscreen : Bool
  support_activated : Bool
  support_maximized : Bool
  support_minimized : Bool
  support_identifier : Bool
  sync : Nat
  syncs_issued : Nat
  log : List String
deriving DecidableEq

/-- Look up the record of a handle id. -/
def lookupRec (h : Nat) : List (Nat × Toplevel) → Option Toplevel
  | [] => none
  | p :: rest => if p.1 = h then some p.2 else lookupRec h rest

/-- Update (in place) every record stored under a handle id. -/
def updateRec (h : Nat) (f : Toplevel → Toplevel) :
    List (Nat × Toplevel) → List (Nat × Toplevel)
  | [] => []
  | p :: rest =>
    if p.1 = h then (p.1, f p.2) :: updateRec h f rest
    else p :: updateRec h f rest

/-- `update_capabilities`: run once after the second sync; dialect A
supports the four state flags, otherwise dialect B supports the
identifier. -/
def update_capabilities (st : ProgState) : ProgState :=
  if st.zwlr_toplevel_manager then
    { st with support_fullscreen := true, support_activated := true,
              support_maximized := true, support_minimized := true }
  else if st.ext_toplevel_list then
    { st with support_identifier := true }
  else st

/-- `registry_handle_global`: bind dialect A only if dialect B is not
already bound and the advertised version is at least 3; bind dialect B
only if dialect A is not already bound; ignore unknown interfaces. -/
def registry_handle_global (st : ProgState) (interface : String)
    (version : Nat) : ProgState :=
  if interface = zwlr_interface_name then
    if st.ext_toplevel_list then st
    else if version < 3 then st
    else { st with zwlr_toplevel_manager := true,
                   zwlr_binds := st.zwlr_binds + 1 }
  else if interface = ext_interface_name then
    if st.zwlr_toplevel_manager then st
    else { st with ext_toplevel_list := true,
                   ext_binds := st.ext_binds + 1 }
  else st

/-- Error message of the first-sync failure branch. -/
def no_protocol_err : String :=
  "ERROR: Wayland server supports none of the protocol extensions required for getting toplevel information"

/-- `sync_handle_done`: on the first sync, fail (exit code, termination
flag, no second sync) if neither dialect was bound, otherwise issue the
second sync; on the second sync, resolve capabilities and terminate the
loop. -/
def sync_handle_done (st : ProgState) : ProgState :=
  if st.sync = 0 then
    if st.zwlr_toplevel_manager = false ∧ st.ext_toplevel_list = false then
      { st with log := st.log ++ [no_protocol_err],
                ret := EXIT_FAILURE, loop := false }
    else
      { st with sync := st.sync + 1, syncs_issued := st.syncs_issued + 1 }
  else
    { update_capabilities st with loop := false }

/-- `toplevel_done`: idempotent listing.  A record that is already
listed is left alone; otherwise it is marked listed and its link is
inserted at the head of the `toplevels` list (`wl_list_insert` on the
list head prepends). -/
def toplevel_done (st : ProgState) (h : Nat) : ProgState :=
  match lookupRec h st.recs with
  | none => st
  | some t =>
    if t.listed then st
    else
      { st with recs := updateRec h (fun t' => { t' with listed := true }) st.recs,
                toplevels := h :: st.toplevels }

/-- One incoming Wayland event, as dispatched to the listeners of
`lswt.c`.  Both dialects funnel their per-handle callbacks into the same
`toplevel_set_*` helpers, so attribute events are dialect-agnostic here;
`state` can only be emitted by dialect A and `identifier` only by
dialect B.  `ok` models the success of the `strdup`/`calloc` the handler
performs. -/
inductive WEvent where
  | global (interface : String) (version : Nat)
  | toplevel (h : Nat) (ok : Bool)
  | title (h : Nat) (s : String) (ok : Bool)
  | app_id (h : Nat) (s : String) (ok : Bool)
  | identifier (h : Nat) (s : String) (ok : Bool)
  | state (h : Nat) (tokens : List Nat)
  | done (h : Nat)
  | closed (h : Nat)
  | sync_done
deriving DecidableEq

/-- One dispatch step.  Per-handle events for a handle that was never
announced (or whose record allocation failed, so no listener was
registered) cannot occur and are no-ops; a `toplevel` announcement can
only come from a bound manager/list, and Wayland object ids are unique,
so re-announcing a live handle cannot occur and is a no-op. -/
def stepW (st : ProgState) : WEvent → ProgState
  | .global interface version => registry_handle_global st interface version
  | .toplevel h ok =>
    if st.zwlr_toplevel_manager || st.ext_toplevel_list then
      if ok then
        if lookupRec h st.recs = none then
          { st with recs := (h, toplevel_new) :: st.recs }
        else st
      else { st with log := st.log ++ ["ERROR: calloc"] }
    else st
  | .title h s ok =>
    match lookupRec h st.recs with
    | none => st
    | some t =>
      let r := toplevel_set_title t s ok
      { st with recs := updateRec h (fun _ => r.1) st.recs,
                log := st.log ++ r.2 }
  | .app_id h s ok =>
    match lookupRec h st.recs with
    | none => st
    | some t =>
      let r := toplevel_set_app_id t s ok st.longest_app_id
      { st with recs := updateRec h (fun _ => r.1) st.recs,
                longest_app_id := r.2.1,
                log := st.log ++ r.2.2 }
  | .identifier h s ok =>
    match lookupRec h st.recs with
    | none => st
    | some t =>
      let r := toplevel_set_identifier t s ok
      { st with recs := updateRec h (fun _ => r.1) st.recs,
                log := st.log ++ r.2 }
  | .state h tokens =>
    match lookupRec h st.recs with
    | none => st
    | some t =>
      { st with recs :=
          updateRec h (fun _ => zwlr_foreign_handle_handle_state t tokens) st.recs }
  | .done h => toplevel_done st h
  | .closed _ => st
  | .sync_done => sync_handle_done st

/-- Dispatch a whole event trace. -/
def processW (st : ProgState) (es : List WEvent) : ProgState :=
  es.foldl stepW st

/-- The globals at entry of the main dispatch loop: `ret = EXIT_SUCCESS`,
`loop = true`, nothing bound, empty record list, `longest_app_id = 7`
(`strlen("app-id:")`), no capabilities, sync counter 0 with the first
sync already requested. -/
def initState : ProgState :=
  { ret := EXIT_SUCCESS, loop := true,
    zwlr_toplevel_manager := false, ext_toplevel_list := false,
    zwlr_binds := 0, ext_binds := 0,
    recs := [], toplevels := [], longest_app_id := 7,
    support_fullscreen := false, support_activated := false,
    support_maximized := false, support_minimized := false,
    support_identifier := false,
    sync := 0, syncs_issued := 1, log := [] }

/-- Handles in the order `dump_and_free_data` renders them:
`wl_list_for_each_reverse` walks the list from tail to head, i.e. the
reverse of the prepend order. -/
def rendered_order (st : ProgState) : List Nat :=
  st.toplevels.reverse

/-- The records rendered after the main loop: `main` calls
`dump_and_free_data` only when `ret == EXIT_SUCCESS`, otherwise
`free_data` renders nothing. -/
def main_render (st : ProgState) : List Nat :=
  if st.ret = EXIT_SUCCESS then rendered_order st else []

/-- The records destroyed after the main loop, in destruction order:
`dump_and_free_data` destroys while rendering (reverse walk), `free_data`
destroys in a forward walk. -/
def main_destroyed (st : ProgState) : List Nat :=
  if st.ret = EXIT_SUCCESS then rendered_order st else st.toplevels

/-- Whether a `done` event for handle `h` actually appends in state
`st` (record exists and is not yet listed). -/
def doneEffective (st : ProgState) (h : Nat) : Bool :=
  match lookupRec h st.recs with
  | some t => !t.listed
  | none => false

/-- The handles in order of first (effective) finalization along a
trace. -/
def finalOrder (st : ProgState) : List WEvent → List Nat
  | [] => []
  | e :: es =>
    (match e with
     | .done h => if doneEffective st h then [h] else []
     | _ => []) ++ finalOrder (stepW st e) es

/-- One attribute event delivered to a single toplevel handle before its
`done` event, as dispatched by the per-handle listeners (`title`,
`app_id`, `identifier`, `state`, `closed` — `closed` is a registered
no-op). -/
inductive HEvent where
  | title (s : String) (ok : Bool)
  | app_id (s : String) (ok : Bool)
  | identifier (s : String) (ok : Bool)
  | state (tokens : List Nat)
  | closed
deriving DecidableEq

/-- Effect of one attribute event on the record itself (the
`longest_app_id` global and the stderr log are dropped; they do not feed
back into the record). -/
def applyHEvent (toplevel : Toplevel) : HEvent → Toplevel
  | .title s ok => (toplevel_set_title toplevel s ok).1
  | .app_id s ok => (toplevel_set_app_id toplevel s ok 7).1
  | .identifier s ok => (toplevel_set_identifier toplevel s ok).1
  | .state tokens => zwlr_foreign_handle_handle_state toplevel tokens
  | .closed => toplevel

/-- Effect of a whole attribute-event sequence on a record. -/
def applyHEvents (toplevel : Toplevel) (es : List HEvent) : Toplevel :=
  es.foldl applyHEvent toplevel

/-- Statement-side: the payload of the last title event of a sequence,
if any (following the wording "the last corresponding event for that
field"). -/
def spec_last_title (es : List HEvent) : Option (String × Bool) :=
  es.foldl
    (fun acc e => match e with | .title s ok => some (s, ok) | _ => acc) none

/-- Statement-side: the payload of the last app-id event of a sequence,
if any. -/
def spec_last_app_id (es : List HEvent) : Option (String × Bool) :=
  es.foldl
    (fun acc e => match e with | .app_id s ok => some (s, ok) | _ => acc) none

/-- Statement-side: the token set of the last state event of a sequence,
if any (following the wording "the last complete snapshot"). -/
def spec_last_state (es : List HEvent) : Option (List Nat) :=
  es.foldl
    (fun acc e => match e with | .state tokens => some tokens | _ => acc) none

/-- Statement-side: values "joined by the delimiter" (the spec wording
for the custom format line). -/
def spec_delimiter_join (d : String) : List String → String
  | [] => ""
  | [x] => x
  | x :: y :: rest => x ++ d ++ spec_delimiter_join d (y :: rest)

/-- The capability globals of a session state, bundled for the output
writers. -/
def caps_of (st : ProgState) : Capabilities :=
  { support_fullscreen := st.support_fullscreen,
    support_activated := st.support_activated,
    support_maximized := st.support_maximized,
    support_minimized := st.support_minimized,
    support_identifier := st.support_identifier }

/-- Whether an event is an advertisement of the dialect-B interface. -/
def isExtGlobal : WEvent → Bool
  | .global interface _ => interface = ext_interface_name
  | _ => false

/-- Registry invariant: the multiplicity of a handle in the `toplevels`
list is 1 when its record is listed and 0 when it is absent or not yet
listed. -/
def RegInv (st : ProgState) : Prop :=
  ∀ h : Nat,
    match lookupRec h st.recs with
    | some t => st.toplevels.count h = (if t.listed then 1 else 0)
    | none => st.toplevels.count h = 0

/-! ## General lemmas about event dispatch -/

theorem processW_append (st : ProgState) (as bs : List WEvent) :
    processW st (as ++ bs) = processW (processW st as) bs :=
  List.foldl_append stepW st as bs

theorem processW_cons (st : ProgState) (e : WEvent) (es : List WEvent) :
    processW st (e :: es) = processW (stepW st e) es := rfl

theorem stepW_ext_frozen (st : ProgState) (e : WEvent)
    (he : isExtGlobal e = false) :
    (stepW st e).ext_toplevel_list = st.ext_toplevel_list ∧
    (stepW st e).ext_binds = st.ext_binds := by
  cases e with
  | global interface version =>
    simp only [isExtGlobal, decide_eq_false_iff_not] at he
    simp only [stepW, registry_handle_global]
    split_ifs <;> simp_all
  | toplevel h ok =>
    simp only [stepW]; split_ifs <;> simp
  | title h s ok =>
    simp only [stepW]; cases lookupRec h st.recs <;> simp
  | app_id h s ok =>
    simp only [stepW]; cases lookupRec h st.recs <;> simp
  | identifier h s ok =>
    simp only [stepW]; cases lookupRec h st.recs <;> simp
  | state h tokens =>
    simp only [stepW]; cases lookupRec h st.recs <;> simp
  | done h =>
    refine ⟨?_, ?_⟩ <;>
    · simp only [stepW, toplevel_done]
      cases lookupRec h st.recs with
      | none => rfl
      | some t => by_cases hl : t.listed = true <;> simp [hl]
  | closed h => exact ⟨rfl, rfl⟩
  | sync_done =>
    simp only [stepW, sync_handle_done, update_capabilities]
    split_ifs <;> simp

theorem processW_ext_frozen (es : List WEvent) (st : ProgState)
    (hes : es.all (fun e => !isExtGlobal e) = true) :
    (processW st es).ext_toplevel_list = st.ext_toplevel_list ∧
    (processW st es).ext_binds = st.ext_binds := by
  induction es generalizing st with
  | nil => exact ⟨rfl, rfl⟩
  | cons e es ih =>
    simp only [List.all_cons, Bool.and_eq_true, Bool.not_eq_true'] at hes
    have h1 := stepW_ext_frozen st e hes.1
    have h2 := ih (stepW st e) (by
      simpa only [List.all_eq_true, Bool.not_eq_true'] using hes.2)
    exact ⟨h2.1.trans h1.1, h2.2.trans h1.2⟩

theorem stepW_zwlr_locked (st : ProgState) (e : WEvent)
    (hz : st.zwlr_toplevel_manager = true) :
    (stepW st e).zwlr_toplevel_manager = true ∧
    (stepW st e).ext_toplevel_list = st.ext_toplevel_list ∧
    (stepW st e).ext_binds = st.ext_binds := by
  cases e with
  | global interface version =>
    simp only [stepW, registry_handle_global]
    split_ifs <;> simp_all
  | toplevel h ok =>
    simp only [stepW]; split_ifs <;> simp_all
  | title h s ok =>
    simp only [stepW]; cases lookupRec h st.recs <;> simp_all
  | app_id h s ok =>
    simp only [stepW]; cases lookupRec h st.recs <;> simp_all
  | identifier h s ok =>
    simp only [stepW]; cases lookupRec h st.recs <;> simp_all
  | state h tokens =>
    simp only [stepW]; cases lookupRec h st.recs <;> simp_all
  | done h =>
    refine ⟨?_, ?_, ?_⟩ <;>
    · simp only [stepW, toplevel_done]
      cases lookupRec h st.recs with
      | none => simp_all
      | some t => by_cases hl : t.listed = true <;> simp_all [hl]
  | closed h => exact ⟨hz, rfl, rfl⟩
  | sync_done =>
    simp only [stepW, sync_handle_done, update_capabilities]
    split_ifs <;> simp_all

theorem processW_zwlr_locked (es : List WEvent) (st : ProgState)
    (hz : st.zwlr_toplevel_manager = true) :
    (processW st es).zwlr_toplevel_manager = true ∧
    (processW st es).ext_toplevel_list = st.ext_toplevel_list ∧
    (processW st es).ext_binds = st.ext_binds := by
  induction es generalizing st with
  | nil => exact ⟨hz, rfl, rfl⟩
  | cons e es ih =>
    have h1 := stepW_zwlr_locked st e hz
    have h2 := ih (stepW st e) h1.1
    exact ⟨h2.1, h2.2.1.trans h1.2.1, h2.2.2.trans h1.2.2⟩

/-! ## C1 -/

/-- C1 (counterexample): when dialect B (ext-foreign-toplevel-list) is
advertised before dialect A (zwlr version 3), Global Discovery binds the
dialect-B list and does not bind the dialect-A manager — refuting the
claim that for both orders dialect A is bound and dialect B is never
bound. -/
theorem registry_ext_first_binds_ext :
    (processW initState
      [WEvent.global ext_interface_name 1,
       WEvent.global zwlr_interface_name 3]).zwlr_toplevel_manager = false ∧
    (processW initState
      [WEvent.global ext_interface_name 1,
       WEvent.global zwlr_interface_name 3]).ext_toplevel_list = true ∧
    (processW initState
      [WEvent.global ext_interface_name 1,
       WEvent.global zwlr_interface_name 3]).ext_binds = 1 := by
  decide

/-- C1 (amended): if the dialect-A advertisement (version ≥ 3) is
processed before any dialect-B advertisement, the dialect-A manager is
bound, the dialect-B list is never bound (zero `wl_registry_bind` calls
for it), and the capability resolution on the final session state marks
all four state flags supported. -/
theorem registry_zwlr_first_preference (pre post : List WEvent) (v : Nat)
    (hv : 3 ≤ v)
    (hpre : pre.all (fun e => !isExtGlobal e) = true) :
    let final := processW initState
      (pre ++ WEvent.global zwlr_interface_name v :: post)
    final.zwlr_toplevel_manager = true ∧
    final.ext_toplevel_list = false ∧
    final.ext_binds = 0 ∧
    (update_capabilities final).support_fullscreen = true ∧
    (update_capabilities final).support_activated = true ∧
    (update_capabilities final).support_maximized = true ∧
    (update_capabilities final).support_minimized = true := by
  intro final
  have hext := processW_ext_frozen pre initState hpre
  have hext1 : (processW initState pre).ext_toplevel_list = false := hext.1
  have hext2 : (processW initState pre).ext_binds = 0 := hext.2
  have hstep :
      stepW (processW initState pre) (WEvent.global zwlr_interface_name v)
        = { processW initState pre with
            zwlr_toplevel_manager := true,
            zwlr_binds := (processW initState pre).zwlr_binds + 1 } := by
    have h3 : ¬ v < 3 := by omega
    simp [stepW, registry_handle_global, hext1, h3]
  have hfin : final = processW
      (stepW (processW initState pre) (WEvent.global zwlr_interface_name v))
      post := by
    show processW initState
      (pre ++ WEvent.global zwlr_interface_name v :: post) = _
    rw [processW_append, processW_cons]
  have hlock := processW_zwlr_locked post
    (stepW (processW initState pre) (WEvent.global zwlr_interface_name v))
    (by rw [hstep])
  rw [← hfin] at hlock
  have hfz : final.zwlr_toplevel_manager = true := hlock.1
  have hfe : final.ext_toplevel_list = false := by
    rw [hlock.2.1, hstep]; exact hext1
  have hfb : final.ext_binds = 0 := by
    rw [hlock.2.2, hstep]; exact hext2
  refine ⟨hfz, hfe, hfb, ?_, ?_, ?_, ?_⟩ <;>
    simp [update_capabilities, hfz]

/-- C1 (witness): the amended theorem applied to the concrete run where
dialect A (version 3) is advertised first and dialect B second. -/
theorem registry_zwlr_first_preference_witness :
    3 ≤ 3 ∧
    ([] : List WEvent).all (fun e => !isExtGlobal e) = true ∧
    ((processW initState
      ([] ++ WEvent.global zwlr_interface_name 3 ::
        [WEvent.global ext_interface_name 1])).zwlr_toplevel_manager = true ∧
     (processW initState
      ([] ++ WEvent.global zwlr_interface_name 3 ::
        [WEvent.global ext_interface_name 1])).ext_toplevel_list = false ∧
     (processW initState
      ([] ++ WEvent.global zwlr_interface_name 3 ::
        [WEvent.global ext_interface_name 1])).ext_binds = 0 ∧
     (update_capabilities (processW initState
      ([] ++ WEvent.global zwlr_interface_name 3 ::
        [WEvent.global ext_interface_name 1]))).support_fullscreen = true ∧
     (update_capabilities (processW initState
      ([] ++ WEvent.global zwlr_interface_name 3 ::
        [WEvent.global ext_interface_name 1]))).support_activated = true ∧
     (update_capabilities (processW initState
      ([] ++ WEvent.global zwlr_interface_name 3 ::
        [WEvent.global ext_interface_name 1]))).support_maximized = true ∧
     (update_capabilities (processW initState
      ([] ++ WEvent.global zwlr_interface_name 3 ::
        [WEvent.global ext_interface_name 1]))).support_minimized = true) :=
  ⟨by decide, by decide,
   registry_zwlr_first_preference [] [WEvent.global ext_interface_name 1] 3
     (by decide) (by decide)⟩

/-! ## Record-store lemmas and the registry invariant (C2) -/

theorem lookupRec_updateRec_self (h : Nat) (f : Toplevel → Toplevel)
    (l : List (Nat × Toplevel)) :
    lookupRec h (updateRec h f l) = (lookupRec h l).map f := by
  induction l with
  | nil => rfl
  | cons p rest ih =>
    by_cases hp : p.1 = h
    · simp [lookupRec, updateRec, hp]
    · simp [lookupRec, updateRec, hp, ih]

theorem lookupRec_updateRec_ne (h h' : Nat) (hne : h' ≠ h)
    (f : Toplevel → Toplevel) (l : List (Nat × Toplevel)) :
    lookupRec h' (updateRec h f l) = lookupRec h' l := by
  have hne2 : ¬ h = h' := fun hc => hne hc.symm
  induction l with
  | nil => rfl
  | cons p rest ih =>
    by_cases hp : p.1 = h
    · simp [lookupRec, updateRec, hp, hne2, ih]
    · by_cases hp' : p.1 = h'
      · simp [lookupRec, updateRec, hp, hp', ih, hne]
      · simp [lookupRec, updateRec, hp, hp', ih]

theorem toplevel_set_title_listed (t : Toplevel) (s : String) (ok : Bool) :
    (toplevel_set_title t s ok).1.listed = t.listed := by
  cases ok <;> simp [toplevel_set_title]

theorem toplevel_set_app_id_listed (t : Toplevel) (s : String) (ok : Bool)
    (longest : Nat) :
    (toplevel_set_app_id t s ok longest).1.listed = t.listed := by
  cases ok <;> simp [toplevel_set_app_id]

theorem toplevel_set_identifier_listed (t : Toplevel) (s : String)
    (ok : Bool) :
    (toplevel_set_identifier t s ok).1.listed = t.listed := by
  cases ok <;> simp [toplevel_set_identifier]

theorem zwlr_handle_state_listed (t : Toplevel) (tokens : List Nat) :
    (zwlr_foreign_handle_handle_state t tokens).listed = t.listed := rfl

theorem RegInv_congr (st st' : ProgState) (hr : st'.recs = st.recs)
    (ht : st'.toplevels = st.toplevels) (hinv : RegInv st) : RegInv st' := by
  intro h
  rw [RegInv] at hinv
  rw [hr, ht]
  exact hinv h

theorem RegInv_update_keep_listed (st : ProgState) (h : Nat)
    (t t' : Toplevel) (hl : lookupRec h st.recs = some t)
    (hf : t'.listed = t.listed) (hinv : RegInv st) :
    RegInv { st with recs := updateRec h (fun _ => t') st.recs } := by
  intro h'
  by_cases hh : h' = h
  · subst hh
    have hthis := hinv h'
    simp only [hl] at hthis
    simp only [lookupRec_updateRec_self, hl, Option.map_some']
    simpa [hf] using hthis
  · rw [lookupRec_updateRec_ne h h' hh]
    exact hinv h'

theorem stepW_toplevels_unchanged (st : ProgState) (e : WEvent)
    (he : ∀ h : Nat, e ≠ WEvent.done h) :
    (stepW st e).toplevels = st.toplevels := by
  cases e with
  | global interface version =>
    simp only [stepW, registry_handle_global]; split_ifs <;> rfl
  | toplevel h ok =>
    simp only [stepW]; split_ifs <;> rfl
  | title h s ok =>
    simp only [stepW]; cases lookupRec h st.recs <;> simp
  | app_id h s ok =>
    simp only [stepW]; cases lookupRec h st.recs <;> simp
  | identifier h s ok =>
    simp only [stepW]; cases lookupRec h st.recs <;> simp
  | state h tokens =>
    simp only [stepW]; cases lookupRec h st.recs <;> simp
  | done h => exact absurd rfl (he h)
  | closed h => rfl
  | sync_done =>
    simp only [stepW, sync_handle_done, update_capabilities]
    split_ifs <;> rfl

theorem toplevel_done_of_none (st : ProgState) (h : Nat)
    (hl : lookupRec h st.recs = none) :
    stepW st (WEvent.done h) = st := by
  simp [stepW, toplevel_done, hl]

theorem toplevel_done_of_listed (st : ProgState) (h : Nat) (t : Toplevel)
    (hl : lookupRec h st.recs = some t) (hlist : t.listed = true) :
    stepW st (WEvent.done h) = st := by
  simp [stepW, toplevel_done, hl, hlist]

theorem toplevel_done_of_unlisted (st : ProgState) (h : Nat) (t : Toplevel)
    (hl : lookupRec h st.recs = some t) (hlist : t.listed = false) :
    stepW st (WEvent.done h) =
      { st with
        recs := updateRec h (fun t' => { t' with listed := true }) st.recs,
        toplevels := h :: st.toplevels } := by
  simp [stepW, toplevel_done, hl, hlist]

theorem stepW_RegInv (st : ProgState) (e : WEvent) (hinv : RegInv st) :
    RegInv (stepW st e) := by
  cases e with
  | global interface version =>
    refine RegInv_congr st _ ?_ ?_ hinv <;>
      (simp only [stepW, registry_handle_global]; split_ifs <;> rfl)
  | toplevel h ok =>
    simp only [stepW]
    split_ifs with hb hok hfresh
    · intro h'
      by_cases hh : h' = h
      · subst hh
        have hthis := hinv h'
        simp only [hfresh] at hthis
        simp [lookupRec, toplevel_new, hthis]
      · have hne2 : ¬ h = h' := fun hc => hh hc.symm
        have hthis := hinv h'
        simpa [lookupRec, hne2] using hthis
    · exact hinv
    · exact RegInv_congr st _ rfl rfl hinv
    · exact hinv
  | title h s ok =>
    simp only [stepW]
    cases hl : lookupRec h st.recs with
    | none => exact hinv
    | some t =>
      exact RegInv_update_keep_listed st h t _ hl
        (toplevel_set_title_listed t s ok) hinv
  | app_id h s ok =>
    simp only [stepW]
    cases hl : lookupRec h st.recs with
    | none => exact hinv
    | some t =>
      exact RegInv_update_keep_listed st h t _ hl
        (toplevel_set_app_id_listed t s ok st.longest_app_id) hinv
  | identifier h s ok =>
    simp only [stepW]
    cases hl : lookupRec h st.recs with
    | none => exact hinv
    | some t =>
      exact RegInv_update_keep_listed st h t _ hl
        (toplevel_set_identifier_listed t s ok) hinv
  | state h tokens =>
    simp only [stepW]
    cases hl : lookupRec h st.recs with
    | none => exact hinv
    | some t =>
      exact RegInv_update_keep_listed st h t _ hl
        (zwlr_handle_state_listed t tokens) hinv
  | done h =>
    cases hl : lookupRec h st.recs with
    | none => rw [toplevel_done_of_none st h hl]; exact hinv
    | some t =>
      by_cases hlist : t.listed = true
      · rw [toplevel_done_of_listed st h t hl hlist]; exact hinv
      · rw [toplevel_done_of_unlisted st h t hl (Bool.not_eq_true _ ▸ hlist)]
        intro h'
        by_cases hh : h' = h
        · subst hh
          have hthis := hinv h'
          simp only [hl] at hthis
          simp only [hlist, if_false] at hthis
          simp only [lookupRec_updateRec_self, hl, Option.map_some']
          simp [List.count_cons, hthis]
        · have hne2 : ¬ h' = h := hh
          rw [lookupRec_updateRec_ne h h' hh]
          have hthis := hinv h'
          have hcount : (h :: st.toplevels).count h'
              = st.toplevels.count h' := by
            simp [List.count_cons, fun hc : h' = h => hh hc]
          cases hl' : lookupRec h' st.recs with
          | none =>
            simp only [hl'] at hthis
            simpa [hcount] using hthis
          | some t' =>
            simp only [hl'] at hthis
            simpa [hcount] using hthis
  | closed h => exact hinv
  | sync_done =>
    refine RegInv_congr st _ ?_ ?_ hinv <;>
      (simp only [stepW, sync_handle_done, update_capabilities];
        split_ifs <;> rfl)

theorem RegInv_initState : RegInv initState := by
  intro h
  simp [initState, lookupRec]

theorem processW_RegInv (es : List WEvent) (st : ProgState)
    (hinv : RegInv st) : RegInv (processW st es) := by
  induction es generalizing st with
  | nil => exact hinv
  | cons e es ih => exact ih (stepW st e) (stepW_RegInv st e hinv)

/-! ## C2 -/

/-- C2: the `done` handler is idempotent — a second `done` event for the
same handle leaves the whole session state (record and Registry alike)
unchanged — and along any event trace from the initial state every
handle occurs at most once in the Registry, no matter how many `done`
events were delivered for it. -/
theorem toplevel_done_idempotent :
    (∀ (st : ProgState) (h : Nat),
      stepW (stepW st (WEvent.done h)) (WEvent.done h)
        = stepW st (WEvent.done h)) ∧
    (∀ (es : List WEvent) (h : Nat),
      (processW initState es).toplevels.count h ≤ 1) := by
  constructor
  · intro st h
    cases hl : lookupRec h st.recs with
    | none =>
      rw [toplevel_done_of_none st h hl, toplevel_done_of_none st h hl]
    | some t =>
      by_cases hlist : t.listed = true
      · rw [toplevel_done_of_listed st h t hl hlist,
          toplevel_done_of_listed st h t hl hlist]
      · rw [toplevel_done_of_unlisted st h t hl (Bool.not_eq_true _ ▸ hlist)]
        apply toplevel_done_of_listed _ h { t with listed := true }
        · simp only [lookupRec_updateRec_self, hl, Option.map_some']
        · rfl
  · intro es h
    have hinv := processW_RegInv es initState RegInv_initState h
    cases hl : lookupRec h (processW initState es).recs with
    | none => simp only [hl] at hinv; omega
    | some t =>
      simp only [hl] at hinv
      rw [hinv]
      split_ifs <;> omega

/-! ## C3 -/

theorem wlr_state_scan_fields (S : List Nat) (ls : WlrStateLocals) :
    (wlr_state_scan ls S).maximized
        = (ls.maximized || S.contains zwlr_state_maximized) ∧
    (wlr_state_scan ls S).minimized
        = (ls.minimized || S.contains zwlr_state_minimized) ∧
    (wlr_state_scan ls S).activated
        = (ls.activated || S.contains zwlr_state_activated) ∧
    (wlr_state_scan ls S).fullscreen
        = (ls.fullscreen || S.contains zwlr_state_fullscreen) := by
  induction S generalizing ls with
  | nil => simp [wlr_state_scan]
  | cons s rest ih =>
    simp only [wlr_state_scan]
    split_ifs with h1 h2 h3 h4 <;>
      simp_all [List.contains_cons, zwlr_state_maximized, zwlr_state_minimized,
        zwlr_state_activated, zwlr_state_fullscreen, Bool.or_assoc,
        Bool.or_comm, Bool.or_left_comm, eq_comm]

theorem zwlr_handle_state_title (t : Toplevel) (S : List Nat) :
    (zwlr_foreign_handle_handle_state t S).title = t.title := rfl

theorem zwlr_handle_state_app_id (t : Toplevel) (S : List Nat) :
    (zwlr_foreign_handle_handle_state t S).app_id = t.app_id := rfl

theorem zwlr_handle_state_identifier (t : Toplevel) (S : List Nat) :
    (zwlr_foreign_handle_handle_state t S).identifier = t.identifier := rfl

theorem zwlr_handle_state_maximized (t : Toplevel) (S : List Nat) :
    (zwlr_foreign_handle_handle_state t S).maximized
      = S.contains zwlr_state_maximized := by
  have h := (wlr_state_scan_fields S
    { fullscreen := false, activated := false,
      minimized := false, maximized := false }).1
  simpa [zwlr_foreign_handle_handle_state, toplevel_set_maximized,
    toplevel_set_minimized, toplevel_set_activated,
    toplevel_set_fullscreen] using h

theorem zwlr_handle_state_minimized (t : Toplevel) (S : List Nat) :
    (zwlr_foreign_handle_handle_state t S).minimized
      = S.contains zwlr_state_minimized := by
  have h := (wlr_state_scan_fields S
    { fullscreen := false, activated := false,
      minimized := false, maximized := false }).2.1
  simpa [zwlr_foreign_handle_handle_state, toplevel_set_maximized,
    toplevel_set_minimized, toplevel_set_activated,
    toplevel_set_fullscreen] using h

theorem zwlr_handle_state_activated (t : Toplevel) (S : List Nat) :
    (zwlr_foreign_handle_handle_state t S).activated
      = S.contains zwlr_state_activated := by
  have h := (wlr_state_scan_fields S
    { fullscreen := false, activated := false,
      minimized := false, maximized := false }).2.2.1
  simpa [zwlr_foreign_handle_handle_state, toplevel_set_maximized,
    toplevel_set_minimized, toplevel_set_activated,
    toplevel_set_fullscreen] using h

theorem zwlr_handle_state_fullscreen (t : Toplevel) (S : List Nat) :
    (zwlr_foreign_handle_handle_state t S).fullscreen
      = S.contains zwlr_state_fullscreen := by
  have h := (wlr_state_scan_fields S
    { fullscreen := false, activated := false,
      minimized := false, maximized := false }).2.2.2
  simpa [zwlr_foreign_handle_handle_state, toplevel_set_maximized,
    toplevel_set_minimized, toplevel_set_activated,
    toplevel_set_fullscreen] using h

/-- C3: along any sequence of attribute events delivered to one record,
each scalar field ends at the value carried by the last corresponding
event of the sequence (title and app-id shown; `none` if the last copy
failed, the field untouched if there was no such event), and the four
state flags end exactly at the token-membership of the last dialect-A
state event — a token absent from that last set makes the flag false
even if an earlier state event had set it. -/
theorem record_fields_last_write_wins (es : List HEvent) (t : Toplevel) :
    (applyHEvents t es).title =
      (match spec_last_title es with
       | none => t.title
       | some (s, ok) => if ok then some s else none) ∧
    (applyHEvents t es).app_id =
      (match spec_last_app_id es with
       | none => t.app_id
       | some (s, ok) => if ok then some s else none) ∧
    (applyHEvents t es).maximized =
      (match spec_last_state es with
       | none => t.maximized
       | some tokens => tokens.contains zwlr_state_maximized) ∧
    (applyHEvents t es).minimized =
      (match spec_last_state es with
       | none => t.minimized
       | some tokens => tokens.contains zwlr_state_minimized) ∧
    (applyHEvents t es).activated =
      (match spec_last_state es with
       | none => t.activated
       | some tokens => tokens.contains zwlr_state_activated) ∧
    (applyHEvents t es).fullscreen =
      (match spec_last_state es with
       | none => t.fullscreen
       | some tokens => tokens.contains zwlr_state_fullscreen) := by
  induction es using List.reverseRecOn with
  | nil => simp [applyHEvents, spec_last_title, spec_last_app_id, spec_last_state]
  | append_singleton es e ih =>
    obtain ⟨ih1, ih2, ih3, ih4, ih5, ih6⟩ := ih
    simp only [applyHEvents, spec_last_title, spec_last_app_id, spec_last_state,
      List.foldl_append, List.foldl_cons, List.foldl_nil] at ih1 ih2 ih3 ih4 ih5 ih6 ⊢
    cases e with
    | title s ok =>
      cases ok <;>
        simp [applyHEvent, toplevel_set_title, ih1, ih2, ih3, ih4, ih5, ih6]
    | app_id s ok =>
      cases ok <;>
        simp [applyHEvent, toplevel_set_app_id, ih1, ih2, ih3, ih4, ih5, ih6]
    | identifier s ok =>
      cases ok <;>
        simp [applyHEvent, toplevel_set_identifier, ih1, ih2, ih3, ih4, ih5, ih6]
    | state tokens =>
      simp [applyHEvent, zwlr_handle_state_title, zwlr_handle_state_app_id,
        zwlr_handle_state_maximized, zwlr_handle_state_minimized,
        zwlr_handle_state_activated, zwlr_handle_state_fullscreen,
        ih1, ih2]
    | closed =>
      simp [applyHEvent, ih1, ih2, ih3, ih4, ih5, ih6]

/-! ## C4 -/

theorem finalOrder_append (as bs : List WEvent) (st : ProgState) :
    finalOrder st (as ++ bs)
      = finalOrder st as ++ finalOrder (processW st as) bs := by
  induction as generalizing st with
  | nil => rfl
  | cons e as ih =>
    simp only [List.cons_append, finalOrder, List.append_eq,
      ih (stepW st e), processW_cons, List.append_assoc]

theorem processW_toplevels_eq (es : List WEvent) (st : ProgState) :
    (processW st es).toplevels = (finalOrder st es).reverse ++ st.toplevels := by
  induction es generalizing st with
  | nil => simp [processW, finalOrder]
  | cons e es ih =>
    rw [processW_cons, ih (stepW st e)]
    have hstep : (stepW st e).toplevels
        = (match e with
           | WEvent.done h => if doneEffective st h then [h] else []
           | _ => []).reverse ++ st.toplevels := by
      cases e with
      | done h =>
        cases hl : lookupRec h st.recs with
        | none =>
          rw [toplevel_done_of_none st h hl]
          simp [doneEffective, hl]
        | some t =>
          by_cases hlist : t.listed = true
          · rw [toplevel_done_of_listed st h t hl hlist]
            simp [doneEffective, hl, hlist]
          · rw [toplevel_done_of_unlisted st h t hl
              (Bool.not_eq_true _ ▸ hlist)]
            simp [doneEffective, hl, hlist]
      | global interface version =>
        exact stepW_toplevels_unchanged st _ (fun _ hc => by cases hc)
      | toplevel h ok =>
        exact stepW_toplevels_unchanged st _ (fun _ hc => by cases hc)
      | title h s ok =>
        exact stepW_toplevels_unchanged st _ (fun _ hc => by cases hc)
      | app_id h s ok =>
        exact stepW_toplevels_unchanged st _ (fun _ hc => by cases hc)
      | identifier h s ok =>
        exact stepW_toplevels_unchanged st _ (fun _ hc => by cases hc)
      | state h tokens =>
        exact stepW_toplevels_unchanged st _ (fun _ hc => by cases hc)
      | closed h =>
        exact stepW_toplevels_unchanged st _ (fun _ hc => by cases hc)
      | sync_done =>
        exact stepW_toplevels_unchanged st _ (fun _ hc => by cases hc)
    rw [hstep]
    simp only [finalOrder, List.reverse_append, List.append_assoc]

theorem stepW_title_of_some (st : ProgState) (h : Nat) (s : String)
    (ok : Bool) (t : Toplevel) (hl : lookupRec h st.recs = some t) :
    stepW st (WEvent.title h s ok)
      = { st with recs := updateRec h (fun _ => (toplevel_set_title t s ok).1) st.recs,
                  log := st.log ++ (toplevel_set_title t s ok).2 } := by
  simp [stepW, hl]

theorem stepW_app_id_of_some (st : ProgState) (h : Nat) (s : String)
    (ok : Bool) (t : Toplevel) (hl : lookupRec h st.recs = some t) :
    stepW st (WEvent.app_id h s ok)
      = { st with
          recs := updateRec h (fun _ => (toplevel_set_app_id t s ok st.longest_app_id).1) st.recs,
          longest_app_id := (toplevel_set_app_id t s ok st.longest_app_id).2.1,
          log := st.log ++ (toplevel_set_app_id t s ok st.longest_app_id).2.2 } := by
  simp [stepW, hl]

theorem stepW_identifier_of_some (st : ProgState) (h : Nat) (s : String)
    (ok : Bool) (t : Toplevel) (hl : lookupRec h st.recs = some t) :
    stepW st (WEvent.identifier h s ok)
      = { st with
          recs := updateRec h (fun _ => (toplevel_set_identifier t s ok).1) st.recs,
          log := st.log ++ (toplevel_set_identifier t s ok).2 } := by
  simp [stepW, hl]

theorem stepW_state_of_some (st : ProgState) (h : Nat) (tokens : List Nat)
    (t : Toplevel) (hl : lookupRec h st.recs = some t) :
    stepW st (WEvent.state h tokens)
      = { st with
          recs := updateRec h (fun _ => zwlr_foreign_handle_handle_state t tokens) st.recs } := by
  simp [stepW, hl]

theorem stepW_attr_of_none (st : ProgState) (h : Nat) (s : String)
    (ok : Bool) (tokens : List Nat) (hl : lookupRec h st.recs = none) :
    stepW st (WEvent.title h s ok) = st ∧
    stepW st (WEvent.app_id h s ok) = st ∧
    stepW st (WEvent.identifier h s ok) = st ∧
    stepW st (WEvent.state h tokens) = st := by
  refine ⟨?_, ?_, ?_, ?_⟩ <;> simp [stepW, hl]

theorem stepW_listed_mono (st : ProgState) (e : WEvent) (h : Nat) (t : Toplevel)
    (hl : lookupRec h st.recs = some t) (hlist : t.listed = true) :
    ∃ t', lookupRec h (stepW st e).recs = some t' ∧ t'.listed = true := by
  cases e with
  | global interface version =>
    refine ⟨t, ?_, hlist⟩
    have hr : (stepW st (WEvent.global interface version)).recs = st.recs := by
      simp only [stepW, registry_handle_global]; split_ifs <;> rfl
    rw [hr]; exact hl
  | toplevel h' ok =>
    simp only [stepW]
    split_ifs with hb hok hfresh
    · refine ⟨t, ?_, hlist⟩
      have hne : ¬ h' = h := fun hc => by
        rw [hc, hl] at hfresh; cases hfresh
      simpa [lookupRec, hne] using hl
    · exact ⟨t, hl, hlist⟩
    · exact ⟨t, hl, hlist⟩
    · exact ⟨t, hl, hlist⟩
  | title h' s ok =>
    cases hl' : lookupRec h' st.recs with
    | none => rw [(stepW_attr_of_none st h' s ok [] hl').1]; exact ⟨t, hl, hlist⟩
    | some t' =>
      rw [stepW_title_of_some st h' s ok t' hl']
      by_cases hh : h = h'
      · subst hh
        rw [hl] at hl'
        cases hl'
        refine ⟨(toplevel_set_title t s ok).1, ?_, ?_⟩
        · simp [lookupRec_updateRec_self, hl]
        · rw [toplevel_set_title_listed]; exact hlist
      · refine ⟨t, ?_, hlist⟩
        show lookupRec h (updateRec h' _ st.recs) = some t
        rw [lookupRec_updateRec_ne h' h hh]; exact hl
  | app_id h' s ok =>
    cases hl' : lookupRec h' st.recs with
    | none => rw [(stepW_attr_of_none st h' s ok [] hl').2.1]; exact ⟨t, hl, hlist⟩
    | some t' =>
      rw [stepW_app_id_of_some st h' s ok t' hl']
      by_cases hh : h = h'
      · subst hh
        rw [hl] at hl'
        cases hl'
        refine ⟨(toplevel_set_app_id t s ok st.longest_app_id).1, ?_, ?_⟩
        · simp [lookupRec_updateRec_self, hl]
        · rw [toplevel_set_app_id_listed]; exact hlist
      · refine ⟨t, ?_, hlist⟩
        show lookupRec h (updateRec h' _ st.recs) = some t
        rw [lookupRec_updateRec_ne h' h hh]; exact hl
  | identifier h' s ok =>
    cases hl' : lookupRec h' st.recs with
    | none => rw [(stepW_attr_of_none st h' s ok [] hl').2.2.1]; exact ⟨t, hl, hlist⟩
    | some t' =>
      rw [stepW_identifier_of_some st h' s ok t' hl']
      by_cases hh : h = h'
      · subst hh
        rw [hl] at hl'
        cases hl'
        refine ⟨(toplevel_set_identifier t s ok).1, ?_, ?_⟩
        · simp [lookupRec_updateRec_self, hl]
        · rw [toplevel_set_identifier_listed]; exact hlist
      · refine ⟨t, ?_, hlist⟩
        show lookupRec h (updateRec h' _ st.recs) = some t
        rw [lookupRec_updateRec_ne h' h hh]; exact hl
  | state h' tokens =>
    cases hl' : lookupRec h' st.recs with
    | none => rw [(stepW_attr_of_none st h' "" true tokens hl').2.2.2]; exact ⟨t, hl, hlist⟩
    | some t' =>
      rw [stepW_state_of_some st h' tokens t' hl']
      by_cases hh : h = h'
      · subst hh
        rw [hl] at hl'
        cases hl'
        refine ⟨zwlr_foreign_handle_handle_state t tokens, ?_, ?_⟩
        · simp [lookupRec_updateRec_self, hl]
        · rw [zwlr_handle_state_listed]; exact hlist
      · refine ⟨t, ?_, hlist⟩
        show lookupRec h (updateRec h' _ st.recs) = some t
        rw [lookupRec_updateRec_ne h' h hh]; exact hl
  | done h' =>
    cases hl' : lookupRec h' st.recs with
    | none => rw [toplevel_done_of_none st h' hl']; exact ⟨t, hl, hlist⟩
    | some t' =>
      by_cases hlist' : t'.listed = true
      · rw [toplevel_done_of_listed st h' t' hl' hlist']
        exact ⟨t, hl, hlist⟩
      · rw [toplevel_done_of_unlisted st h' t' hl'
          (Bool.not_eq_true _ ▸ hlist')]
        by_cases hh : h = h'
        · subst hh
          refine ⟨{ t with listed := true }, ?_, rfl⟩
          show lookupRec h (updateRec h _ st.recs) = _
          simp [lookupRec_updateRec_self, hl]
        · refine ⟨t, ?_, hlist⟩
          show lookupRec h (updateRec h' _ st.recs) = some t
          rw [lookupRec_updateRec_ne h' h hh]; exact hl
  | closed h' => exact ⟨t, hl, hlist⟩
  | sync_done =>
    refine ⟨t, ?_, hlist⟩
    have hr : (stepW st WEvent.sync_done).recs = st.recs := by
      simp only [stepW, sync_handle_done, update_capabilities]
      split_ifs <;> rfl
    rw [hr]; exact hl

theorem processW_listed_mono (es : List WEvent) (st : ProgState) (h : Nat)
    (t : Toplevel) (hl : lookupRec h st.recs = some t)
    (hlist : t.listed = true) :
    ∃ t', lookupRec h (processW st es).recs = some t' ∧ t'.listed = true := by
  induction es generalizing st t with
  | nil => exact ⟨t, hl, hlist⟩
  | cons e es ih =>
    obtain ⟨t', hl', hlist'⟩ := stepW_listed_mono st e h t hl hlist
    exact ih (stepW st e) t' hl' hlist'

theorem mem_finalOrder_listed (es : List WEvent) (st : ProgState) (h : Nat)
    (hmem : h ∈ finalOrder st es) :
    ∃ t, lookupRec h (processW st es).recs = some t ∧ t.listed = true := by
  induction es generalizing st with
  | nil => cases hmem
  | cons e es ih =>
    simp only [finalOrder, List.mem_append] at hmem
    rcases hmem with hmem | hmem
    · cases e with
      | done h' =>
        by_cases heff : doneEffective st h' = true
        · simp only [heff, if_true, List.mem_singleton] at hmem
          subst hmem
          unfold doneEffective at heff
          cases hl : lookupRec h st.recs with
          | none => rw [hl] at heff; cases heff
          | some t =>
            rw [hl] at heff
            simp only [Bool.not_eq_true'] at heff
            rw [processW_cons]
            have hstep := toplevel_done_of_unlisted st h t hl heff
            have hl2 : lookupRec h (stepW st (WEvent.done h)).recs
                = some { t with listed := true } := by
              rw [hstep]
              simp [lookupRec_updateRec_self, hl]
            exact processW_listed_mono es _ h _ hl2 rfl
        · simp only [Bool.not_eq_true] at heff
          simp [heff] at hmem
      | global interface version => cases hmem
      | toplevel h' ok => cases hmem
      | title h' s ok => cases hmem
      | app_id h' s ok => cases hmem
      | identifier h' s ok => cases hmem
      | state h' tokens => cases hmem
      | closed h' => cases hmem
      | sync_done => cases hmem
    · rw [processW_cons]
      exact ih (stepW st e) hmem

/-- C4: the rendered output lists records in the order of their first
finalization, not their creation order: if at the moment handle Y
receives its (first, effective) `done` event handle X also already has a
live, not-yet-finalized record — in particular whenever X was created
before Y — and X is finalized somewhere in the remaining trace, then the
rendered output lists Y before X. -/
theorem render_order_is_finalization_order
    (es1 es2 : List WEvent) (X Y : Nat) (tX tY : Toplevel)
    (_hXY : X ≠ Y)
    (hlY : lookupRec Y (processW initState es1).recs = some tY)
    (hYun : tY.listed = false)
    (hlX : lookupRec X (processW initState es1).recs = some tX)
    (hXun : tX.listed = false)
    (hXfin : X ∈ finalOrder
      (stepW (processW initState es1) (WEvent.done Y)) es2) :
    ∃ l1 l2 : List Nat,
      rendered_order (processW initState (es1 ++ WEvent.done Y :: es2))
        = l1 ++ Y :: l2 ∧ X ∉ l1 ∧ X ∈ l2 := by
  have heff : doneEffective (processW initState es1) Y = true := by
    simp [doneEffective, hlY, hYun]
  have hrend : rendered_order (processW initState (es1 ++ WEvent.done Y :: es2))
      = finalOrder initState (es1 ++ WEvent.done Y :: es2) := by
    rw [rendered_order, processW_toplevels_eq]
    simp [initState]
  have hsplit : finalOrder initState (es1 ++ WEvent.done Y :: es2)
      = finalOrder initState es1
        ++ Y :: finalOrder (stepW (processW initState es1) (WEvent.done Y)) es2 := by
    rw [finalOrder_append]
    simp [finalOrder, heff]
  refine ⟨finalOrder initState es1,
    finalOrder (stepW (processW initState es1) (WEvent.done Y)) es2,
    by rw [hrend, hsplit], ?_, hXfin⟩
  intro hXmem
  obtain ⟨t, hl, hlist⟩ := mem_finalOrder_listed es1 initState X hXmem
  rw [hl] at hlX
  cases hlX
  rw [hlist] at hXun
  cases hXun

/-- C4 (witness): the theorem applied to the concrete run — dialect A
bound, handles 0 then 1 created, 1 finalized first, then 0 — whose
rendered order is `[1, 0]`. -/
theorem render_order_is_finalization_order_witness :
    (0 : Nat) ≠ 1 ∧
    lookupRec 1 (processW initState
      [WEvent.global zwlr_interface_name 3,
       WEvent.toplevel 0 true, WEvent.toplevel 1 true]).recs
      = some toplevel_new ∧
    toplevel_new.listed = false ∧
    lookupRec 0 (processW initState
      [WEvent.global zwlr_interface_name 3,
       WEvent.toplevel 0 true, WEvent.toplevel 1 true]).recs
      = some toplevel_new ∧
    (0 : Nat) ∈ finalOrder
      (stepW (processW initState
        [WEvent.global zwlr_interface_name 3,
         WEvent.toplevel 0 true, WEvent.toplevel 1 true]) (WEvent.done 1))
      [WEvent.done 0] ∧
    (∃ l1 l2 : List Nat,
      rendered_order (processW initState
        ([WEvent.global zwlr_interface_name 3,
          WEvent.toplevel 0 true, WEvent.toplevel 1 true]
          ++ WEvent.done 1 :: [WEvent.done 0]))
        = l1 ++ 1 :: l2 ∧ (0 : Nat) ∉ l1 ∧ (0 : Nat) ∈ l2) :=
  ⟨by decide, by decide, by decide, by decide, by decide,
   render_order_is_finalization_order
     [WEvent.global zwlr_interface_name 3,
      WEvent.toplevel 0 true, WEvent.toplevel 1 true]
     [WEvent.done 0] 0 1 toplevel_new toplevel_new
     (by decide) (by decide) (by decide) (by decide) (by decide) (by decide)⟩

/-! ## C5 -/

/-- C5: if at the first sync acknowledgment neither dialect has been
bound, the session is marked failed (`ret = EXIT_FAILURE`), the
termination flag is cleared, no second sync request is issued
(`syncs_issued` unchanged), and teardown renders nothing while
destroying every record the session holds. -/
theorem first_sync_unbound_discard_only (st : ProgState)
    (h0 : st.sync = 0)
    (hz : st.zwlr_toplevel_manager = false)
    (he : st.ext_toplevel_list = false) :
    (stepW st WEvent.sync_done).ret = EXIT_FAILURE ∧
    (stepW st WEvent.sync_done).loop = false ∧
    (stepW st WEvent.sync_done).syncs_issued = st.syncs_issued ∧
    main_render (stepW st WEvent.sync_done) = [] ∧
    main_destroyed (stepW st WEvent.sync_done)
      = (stepW st WEvent.sync_done).toplevels := by
  have hstep : stepW st WEvent.sync_done =
      { st with log := st.log ++ [no_protocol_err],
                ret := EXIT_FAILURE, loop := false } := by
    simp [stepW, sync_handle_done, h0, hz, he]
  rw [hstep]
  refine ⟨rfl, rfl, rfl, ?_, ?_⟩ <;>
    simp [main_render, main_destroyed, EXIT_FAILURE, EXIT_SUCCESS]

/-- C5 (witness): the theorem applied to the state at main-loop entry
(no globals were advertised at all). -/
theorem first_sync_unbound_discard_only_witness :
    initState.sync = 0 ∧
    initState.zwlr_toplevel_manager = false ∧
    initState.ext_toplevel_list = false ∧
    ((stepW initState WEvent.sync_done).ret = EXIT_FAILURE ∧
     (stepW initState WEvent.sync_done).loop = false ∧
     (stepW initState WEvent.sync_done).syncs_issued = initState.syncs_issued ∧
     main_render (stepW initState WEvent.sync_done) = [] ∧
     main_destroyed (stepW initState WEvent.sync_done)
       = (stepW initState WEvent.sync_done).toplevels) :=
  ⟨rfl, rfl, rfl,
   first_sync_unbound_discard_only initState rfl rfl rfl⟩

/-! ## C6 -/

/-- C6 (counterexample): with a title "A" already set, a failing string
copy for a new title "B" leaves the field unset (`strdup`'s null result
is stored after the old string was freed), not at its previous value —
refuting "the affected field is left at its previous value". -/
theorem set_title_alloc_failure_clears_field :
    ({ toplevel_new with title := some "A" } : Toplevel).title = some "A" ∧
    (toplevel_set_title { toplevel_new with title := some "A" } "B" false).1.title
      = none ∧
    (toplevel_set_title { toplevel_new with title := some "A" } "B" false).1.title
      ≠ some "A" := by
  refine ⟨rfl, rfl, by decide⟩

/-- C6 (amended): when the string-copy allocation fails during a title,
app-id or identifier mutation, an error is logged to the diagnostic
stream and the session continues without being marked failed (`ret` and
`loop` untouched), but the affected field is reset to unset — the
previous value was already freed — rather than left at its previous
value; a failing app-id copy also leaves the padding width untouched. -/
theorem alloc_failure_logged_nonfatal :
    (∀ (t : Toplevel) (s : String),
      (toplevel_set_title t s false).1.title = none ∧
      (toplevel_set_title t s false).2 ≠ []) ∧
    (∀ (t : Toplevel) (s : String) (longest : Nat),
      (toplevel_set_app_id t s false longest).1.app_id = none ∧
      (toplevel_set_app_id t s false longest).2.1 = longest ∧
      (toplevel_set_app_id t s false longest).2.2 ≠ []) ∧
    (∀ (t : Toplevel) (s : String),
      (toplevel_set_identifier t s false).1.identifier = none ∧
      (toplevel_set_identifier t s false).2 ≠ []) ∧
    (∀ (st : ProgState) (h : Nat) (s : String),
      (stepW st (WEvent.title h s false)).ret = st.ret ∧
      (stepW st (WEvent.title h s false)).loop = st.loop ∧
      (stepW st (WEvent.app_id h s false)).ret = st.ret ∧
      (stepW st (WEvent.app_id h s false)).loop = st.loop ∧
      (stepW st (WEvent.identifier h s false)).ret = st.ret ∧
      (stepW st (WEvent.identifier h s false)).loop = st.loop) := by
  refine ⟨?_, ?_, ?_, ?_⟩
  · intro t s
    simp [toplevel_set_title]
  · intro t s longest
    simp [toplevel_set_app_id]
  · intro t s
    constructor
    · simp [toplevel_set_identifier]
    · simp only [toplevel_set_identifier]
      split_ifs <;> simp_all
  · intro st h s
    refine ⟨?_, ?_, ?_, ?_, ?_, ?_⟩ <;>
    · simp only [stepW]
      cases lookupRec h st.recs <;> simp

/-! ## C7 -/

/-- C7: `quoted_fputs` escapes quote, newline and tab but NOT backslash.
On the title `a\b` the emitted text keeps the bare backslash (output
`"a\b"`, not `"a\\b"`), even though the code's own byte-count helper
`real_strlen` charges 2 printed bytes for a backslash (4 in total for
`a\b` versus the 3 non-quote bytes `quoted_fputs` actually emits) — the
two disagree, so one of them is wrong, and the JSON writer emits the raw
backslash.  Quote escaping itself does work (`He said "hi"` becomes
`"He said \"hi\""`) and an unset string renders as `null`. -/
theorem quoted_fputs_backslash_not_escaped :
    (quoted_fputs "a\\b").1 = "\"a\\b\"" ∧
    (quoted_fputs "a\\b").1 ≠ "\"a\\\\b\"" ∧
    (quoted_fputs "a\\b").2 = 5 ∧
    real_strlen "a\\b" = 4 ∧
    write_json (some "a\\b") = "\"a\\b\"" ∧
    write_json (some "He said \"hi\"") = "\"He said \\\"hi\\\"\"" ∧
    write_json none = "null" := by
  decide

/-! ## C8 -/

theorem custom_loop_cons_true (delim : Char) (caps : Capabilities)
    (t : Toplevel) (c : Char) (rest : List Char) :
    custom_loop delim caps t (c :: rest) true
      = String.singleton delim ++ custom_loop delim caps t (c :: rest) false := by
  simp only [custom_loop, if_pos, if_neg, String.append_assoc]
  simp

theorem custom_loop_false_eq_join (delim : Char) (caps : Capabilities)
    (t : Toplevel) (codes : List Char) :
    custom_loop delim caps t codes false
      = spec_delimiter_join (String.singleton delim)
          (codes.map (custom_field caps t)) := by
  induction codes with
  | nil => rfl
  | cons c rest ih =>
    cases rest with
    | nil =>
      simp [custom_loop, spec_delimiter_join, String.append_empty]
    | cons c' rest' =>
      calc custom_loop delim caps t (c :: c' :: rest') false
          = custom_field caps t c ++ custom_loop delim caps t (c' :: rest') true := by
            simp [custom_loop]
        _ = custom_field caps t c ++ (String.singleton delim
              ++ custom_loop delim caps t (c' :: rest') false) := by
            rw [custom_loop_cons_true]
        _ = custom_field caps t c ++ String.singleton delim
              ++ spec_delimiter_join (String.singleton delim)
                  ((c' :: rest').map (custom_field caps t)) := by
            rw [ih, String.append_assoc]
        _ = spec_delimiter_join (String.singleton delim)
              ((c :: c' :: rest').map (custom_field caps t)) := by
            simp [spec_delimiter_join]

/-- C8: a custom-format line is exactly the field values, in field-code
order, joined by the delimiter (the first character of the format) and
terminated by a newline; optional fields of an inactive dialect render
as the literal token `unsupported`; and format `|taM` under dialect A on
a toplevel with title "Term", app-id "foo", maximized=true yields the
line `Term|foo|true`. -/
theorem custom_line_delimiter_join :
    (∀ (delim : Char) (codes : List Char) (caps : Capabilities) (t : Toplevel),
      out_write_toplevel_custom (String.mk (delim :: codes)) caps t
        = spec_delimiter_join (String.singleton delim)
            (codes.map (custom_field caps t)) ++ "\n") ∧
    (∀ (b : Bool) (s : Option String),
      write_custom_optional_bool false b = "unsupported" ∧
      write_custom_optional false s = "unsupported") ∧
    out_write_toplevel_custom "|taM"
      (caps_of (update_capabilities
        { initState with zwlr_toplevel_manager := true }))
      { toplevel_new with
        title := some "Term", app_id := some "foo", maximized := true }
      = "Term|foo|true\n" := by
  refine ⟨?_, ?_, ?_⟩
  · intro delim codes caps t
    show custom_loop delim caps t codes false ++ "\n" = _
    rw [custom_loop_false_eq_join]
  · intro b s
    exact ⟨rfl, rfl⟩
  · decide

/-! ## C9 -/

/-- C9: every malformed custom format — empty, a single character only,
or containing a field code outside {t,a,i,A,f,m,M} — makes
`out_check_custom_format` fail and print a diagnostic, upon which `main`
takes the usage-error exit with code 1 before any session is attempted
(`ArgOutcome.early` is the `goto cleanup` path that never connects),
both for `-c` and for `--custom`. -/
theorem malformed_custom_format_early_exit (fmt : String) (rest : List String)
    (hbad : fmt.length = 0 ∨ fmt.length = 1 ∨
      (fmt.toList.drop 1).any (fun c => !valid_field_code c) = true) :
    (out_check_custom_format fmt).1 = false ∧
    (out_check_custom_format fmt).2 ≠ [] ∧
    parse_args ("-c" :: fmt :: rest) = ArgOutcome.early EXIT_FAILURE ∧
    parse_args ("--custom" :: fmt :: rest) = ArgOutcome.early EXIT_FAILURE := by
  have himp : ∀ g : String,
      (out_check_custom_format g).1 = false →
      (out_check_custom_format g).2 ≠ [] := by
    intro g
    simp only [out_check_custom_format]
    split_ifs <;> simp
  have hchk : (out_check_custom_format fmt).1 = false := by
    rcases hbad with h | h | h
    · simp [out_check_custom_format, h]
    · simp [out_check_custom_format, h]
    · have hall : (fmt.toList.drop 1).all valid_field_code = false := by
        cases hv : (fmt.toList.drop 1).all valid_field_code
        · rfl
        · exfalso
          rw [List.any_eq_true] at h
          obtain ⟨c, hc, hcv⟩ := h
          have h4 := (List.all_eq_true.mp hv) c hc
          simp_all
      simp only [out_check_custom_format]
      split_ifs with hA hB hC
      · rfl
      · rw [hall] at hC
        exact absurd hC Bool.false_ne_true
      · rfl
      · rfl
  have hboth : (out_check_custom_format fmt).1 = false ∧
      (out_check_custom_format fmt).2 ≠ [] := ⟨hchk, himp fmt hchk⟩
  have hc1 : parse_args ("-c" :: fmt :: rest) = ArgOutcome.early EXIT_FAILURE := by
    show (if (out_check_custom_format fmt).1 = false
          then ArgOutcome.early EXIT_FAILURE
          else parse_go Output_format.CUSTOM (some fmt) false rest)
        = ArgOutcome.early EXIT_FAILURE
    rw [if_pos hboth.1]
  have hc2 : parse_args ("--custom" :: fmt :: rest)
      = ArgOutcome.early EXIT_FAILURE := by
    show (if (out_check_custom_format fmt).1 = false
          then ArgOutcome.early EXIT_FAILURE
          else parse_go Output_format.CUSTOM (some fmt) false rest)
        = ArgOutcome.early EXIT_FAILURE
    rw [if_pos hboth.1]
  exact ⟨hboth.1, hboth.2, hc1, hc2⟩

/-- C9 (witness): the theorem applied to the malformed format `|x`
(unknown field code `x`). -/
theorem malformed_custom_format_early_exit_witness :
    (("|x" : String).length = 0 ∨ ("|x" : String).length = 1 ∨
      (("|x" : String).toList.drop 1).any (fun c => !valid_field_code c) = true) ∧
    ((out_check_custom_format "|x").1 = false ∧
     (out_check_custom_format "|x").2 ≠ [] ∧
     parse_args ["-c", "|x"] = ArgOutcome.early EXIT_FAILURE ∧
     parse_args ["--custom", "|x"] = ArgOutcome.early EXIT_FAILURE) :=
  ⟨by decide, malformed_custom_format_early_exit "|x" [] (by decide)⟩

/-! ## C10 -/

theorem parse_go_debug_irrelevant_aux (n : Nat) :
    ∀ (args : List String), args.length ≤ n →
    ∀ (f : Output_format) (c : Option String) (d d' : Bool),
      (parse_go f c d args).erase_debug = (parse_go f c d' args).erase_debug := by
  induction n with
  | zero =>
    intro args hlen f c d d'
    cases args with
    | nil => rfl
    | cons a rest => simp at hlen
  | succ n ih =>
    intro args hlen f c d d'
    cases args with
    | nil => rfl
    | cons a rest =>
      have hrest : rest.length ≤ n := by
        simpa [Nat.succ_le_succ_iff] using hlen
      by_cases h1 : a = "-j" ∨ a = "--json"
      · by_cases h2 : f ≠ Output_format.NORMAL
        · have hstep : ∀ b : Bool, parse_go f c b (a :: rest)
              = ArgOutcome.early EXIT_FAILURE := by
            intro b; rw [parse_go.eq_def]; simp [h1, h2]
          rw [hstep d, hstep d']
        · have hstep : ∀ b : Bool, parse_go f c b (a :: rest)
              = parse_go Output_format.JSON c b rest := by
            intro b; rw [parse_go.eq_def]; simp [h1, h2]
          rw [hstep d, hstep d']
          exact ih rest hrest _ _ d d'
      · by_cases h3 : a = "-c" ∨ a = "--custom"
        · by_cases h2 : f ≠ Output_format.NORMAL
          · have hstep : ∀ b : Bool, parse_go f c b (a :: rest)
                = ArgOutcome.early EXIT_FAILURE := by
              intro b; rw [parse_go.eq_def]; simp [h1, h3, h2]
            rw [hstep d, hstep d']
          · cases rest with
            | nil =>
              have hstep : ∀ b : Bool, parse_go f c b [a]
                  = ArgOutcome.early EXIT_FAILURE := by
                intro b; rw [parse_go.eq_def]; simp [h1, h3, h2]
              rw [hstep d, hstep d']
            | cons fmt rest' =>
              have hrest' : rest'.length ≤ n := by
                simp at hrest; omega
              by_cases h4 : (out_check_custom_format fmt).1 = false
              · have hstep : ∀ b : Bool, parse_go f c b (a :: fmt :: rest')
                    = ArgOutcome.early EXIT_FAILURE := by
                  intro b; rw [parse_go.eq_def]; simp [h1, h3, h2, h4]
                rw [hstep d, hstep d']
              · have hstep : ∀ b : Bool, parse_go f c b (a :: fmt :: rest')
                    = parse_go Output_format.CUSTOM (some fmt) b rest' := by
                  intro b; rw [parse_go.eq_def]; simp [h1, h3, h2, h4]
                rw [hstep d, hstep d']
                exact ih rest' hrest' _ _ d d'
        · by_cases h5 : a = "--debug"
          · have hstep : ∀ b : Bool, parse_go f c b (a :: rest)
                = parse_go f c true rest := by
              intro b; subst h5; rw [parse_go.eq_def]; simp
            rw [hstep d, hstep d']
          · by_cases h6 : a = "-v" ∨ a = "--version"
            · have hstep : ∀ b : Bool, parse_go f c b (a :: rest)
                  = ArgOutcome.early EXIT_SUCCESS := by
                intro b; rw [parse_go.eq_def]; simp [h1, h3, h5, h6]
              rw [hstep d, hstep d']
            · by_cases h7 : a = "-h" ∨ a = "--help"
              · have hstep : ∀ b : Bool, parse_go f c b (a :: rest)
                    = ArgOutcome.early EXIT_SUCCESS := by
                  intro b; rw [parse_go.eq_def]; simp [h1, h3, h5, h6, h7]
                rw [hstep d, hstep d']
              · have hstep : ∀ b : Bool, parse_go f c b (a :: rest)
                    = ArgOutcome.early EXIT_FAILURE := by
                  intro b; rw [parse_go.eq_def]; simp [h1, h3, h5, h6, h7]
                rw [hstep d, hstep d']

set_option maxRecDepth 8000 in
/-- C10: the argument parser accepts `--debug`, which the usage text
does not mention (it occurs nowhere in `usage`): parsing simply
continues with the `debug_log` global enabled — which is what switches
`DEBUG_LOG` diagnostics onto the error stream — and the flag's value
changes neither the selected output format nor the parsing outcome and
exit code (everything except the `debug_log` component is independent of
it). -/
theorem debug_flag_accepted_hidden_harmless :
    (∀ (rest : List String) (f : Output_format) (c : Option String) (d : Bool),
      parse_go f c d ("--debug" :: rest) = parse_go f c true rest) ∧
    (∀ (args : List String) (f : Output_format) (c : Option String) (d d' : Bool),
      (parse_go f c d args).erase_debug = (parse_go f c d' args).erase_debug) ∧
    containsSeq "--debug".toList usage.toList = false ∧
    (∀ msg : String, debug_stderr true msg = [msg] ∧ debug_stderr false msg = []) := by
  refine ⟨?_, ?_, ?_, ?_⟩
  · intro rest f c d
    rw [parse_go.eq_def]
    simp
  · intro args f c d d'
    exact parse_go_debug_irrelevant_aux args.length args (Nat.le_refl _) f c d d'
  · decide
  · intro msg
    exact ⟨rfl, rfl⟩

end Lswt
